import Mathlib

/-!
Shallow embedding of the input-detection core of the SC-Binding-Utility
repository (files src-tauri/src/directinput.rs and src-tauri/src/hid_reader.rs).

Machine floating-point values (f32) are modelled as exact rationals: every
constant and comparison appearing in the embedded code paths is exact at the
relevant magnitudes, and the threshold logic under scrutiny is stated over
strict or non-strict comparisons of such constants.  Machine integers (u16,
i32, u32) are modelled as Nat/Int with explicit wrapping where the source
casts can wrap.
-/

namespace SCBind

/-! ## Edge-detector state (directinput.rs, struct AxisState, lines 178-181) -/

/-- Per-(device, axis) detector state: `last_value` and
`last_triggered_direction` (`some true` = positive, `some false` = negative),
as in `struct AxisState` of directinput.rs. -/
structure AxisState where
  last_value : ℚ
  last_triggered_direction : Option Bool
deriving DecidableEq, Repr

/-- One iteration of the XInput per-axis edge-detector body
(directinput.rs lines 395-454).  Returns the updated state together with
`some true` when a positive event is pushed, `some false` for a negative
event, `none` when nothing is pushed.  Thresholds: `AXIS_TRIGGER_THRESHOLD =
0.5`, `AXIS_RESET_THRESHOLD = 0.3`, `MOVEMENT_THRESHOLD = 0.3`. -/
def xinputAxisStep (s : AxisState) (value : ℚ) : AxisState × Option Bool :=
  let movement_delta := |value - s.last_value|
  let is_positive := decide (value > 1/2)
  let is_negative := decide (value < -(1/2))
  let is_centered := decide (|value| < 3/10)
  let has_moved_enough := decide (movement_delta > 3/10)
  let s1 := if is_centered then
      { last_value := value, last_triggered_direction := none }
    else s
  let should_trigger :=
    (is_positive && has_moved_enough
       && !(s1.last_triggered_direction == some true))
    || (is_negative && has_moved_enough
       && !(s1.last_triggered_direction == some false))
  if should_trigger then
    ({ last_value := value, last_triggered_direction := some is_positive },
     some is_positive)
  else
    (s1, none)

/-- Fold `xinputAxisStep` over a sequence of sampled values, collecting the
emitted event directions in order (`true` = positive, `false` = negative). -/
def xinputRun (s : AxisState) : List ℚ → List Bool × AxisState
  | [] => ([], s)
  | v :: vs =>
    let (s1, ev) := xinputAxisStep s v
    let (evs, sFinal) := xinputRun s1 vs
    (ev.toList ++ evs, sFinal)

/-! ## HID poll events (directinput.rs, DetectedInput construction sites) -/

/-- Hat directions produced by the hat-switch table. -/
inductive HatDir
  | up
  | down
  | left
  | right
deriving DecidableEq, Repr

def HatDir.str : HatDir → String
  | .up => "up"
  | .down => "down"
  | .left => "left"
  | .right => "right"

/-- The discrete events pushed by the HID branch of `InputDetector::poll`,
keeping the data that feeds the emitted `DetectedInput`: the device instance,
the button number or axis index, the direction, and the normalized value. -/
inductive PollEvent
  | button (inst : ℕ) (button_num : ℕ)
  | axis (inst : ℕ) (axis_index : ℕ) (positive : Bool) (normalized : ℚ)
  | hat (inst : ℕ) (dir : HatDir) (normalized : ℚ)
deriving DecidableEq, Repr

def PollEvent.isButton : PollEvent → Bool
  | .button _ _ => true
  | _ => false

/-- The `input_string` field of the `DetectedInput` record built for each
event kind (directinput.rs lines 526, 617-620, 675-678). -/
def PollEvent.inputString : PollEvent → String
  | .button inst n => "js" ++ toString inst ++ "_button" ++ toString n
  | .axis inst idx pos _ =>
      "js" ++ toString inst ++ "_axis" ++ toString idx ++ "_"
        ++ (if pos then "positive" else "negative")
  | .hat inst d _ => "js" ++ toString inst ++ "_hat1_" ++ d.str

/-- The hat-switch 8-to-4 direction table (directinput.rs lines 602-613);
`none` for the centered values 8 and 15 and for out-of-range values. -/
def hatDirection : ℕ → Option HatDir
  | 0 => some .up
  | 1 => some .up
  | 2 => some .right
  | 3 => some .right
  | 4 => some .down
  | 5 => some .down
  | 6 => some .left
  | 7 => some .left
  | 8 => none
  | 15 => none
  | _ => none

/-- Axis normalization `((current_value as i32 - logical_min) as f32 / range
* 2.0) - 1.0` (directinput.rs lines 574-575). -/
def normalizeAxis (curVal : ℕ) (lo hi : ℤ) : ℚ :=
  ((curVal : ℚ) - (lo : ℚ)) / ((hi : ℚ) - (lo : ℚ)) * 2 - 1

/-- Body of the per-axis loop of the HID branch of `InputDetector::poll`
(directinput.rs lines 551-699) for one axis entry: skip when the logical range
is not positive, gate on the absolute raw change `AXIS_CHANGE_THRESHOLD = 50`,
then either the hat-switch branch (usage id `0x39` = 57) or the regular-axis
branch, whose direction is the sign test `normalized > 0.0`.  `axisIndex` is
the emitted axis index, computed by the caller exactly as at the two
construction sites. -/
def processHidAxis (inst axisIndex axisId prevVal curVal : ℕ) (lo hi : ℤ) :
    List PollEvent :=
  let range : ℤ := hi - lo
  if range ≤ 0 then []
  else
    let change_abs : ℤ := |(curVal : ℤ) - (prevVal : ℤ)|
    if change_abs ≥ 50 then
      let normalized := normalizeAxis curVal lo hi
      if axisId = 57 then
        match hatDirection curVal with
        | some d => [.hat inst d normalized]
        | none => []
      else
        [.axis inst axisIndex (decide (normalized > 0)) normalized]
    else []

/-! ## Descriptor field model (hid_reader.rs) -/

/-- A decoded descriptor field, as classified by the `hidreport` crate:
`Variable` carries the usage page/id, the logical range, and the bit width;
`Array` is an enumerated-button field; `Constant` is padding. -/
inductive HidField
  | Variable (usage_page usage_id : ℕ) (logical_min logical_max : ℤ)
      (bits : ℕ)
  | Array (bits : ℕ)
  | Constant (bits : ℕ)
deriving DecidableEq, Repr

/-- The usage ids of the axis fields of a descriptor, in encounter order
across all input reports: `Variable` fields whose usage page is not the
button page `0x09`, exactly the fields counted by
`get_directinput_to_hid_axis_mapping` (hid_reader.rs lines 352-377). -/
def axisUsageIds (reports : List (List HidField)) : List ℕ :=
  (reports.flatten).filterMap fun f =>
    match f with
    | .Variable page uid _ _ _ => if page = 9 then none else some uid
    | .Array _ => none
    | .Constant _ => none

/-- Number a list of usage ids consecutively starting at `n`, building the
`(directinput_index, hid_usage_id)` pairs of
`get_directinput_to_hid_axis_mapping`. -/
def diToHidAux (n : ℕ) : List ℕ → List (ℕ × ℕ)
  | [] => []
  | uid :: rest => (n, uid) :: diToHidAux (n + 1) rest

/-- The map of `get_directinput_to_hid_axis_mapping` (hid_reader.rs lines 341-380):
1-based sequential DirectInput index, in encounter order across all input
reports, paired with the field's HID usage id. -/
def diToHidMapping (reports : List (List HidField)) : List (ℕ × ℕ) :=
  diToHidAux 1 (axisUsageIds reports)

/-- The inverted map built in `InputDetector::new` (directinput.rs lines
271-278): HID usage id back to the DirectInput axis index. -/
def hidToAxis (reports : List (List HidField)) (uid : ℕ) : Option ℕ :=
  List.lookup uid ((diToHidMapping reports).map Prod.swap)

/-- The `axis_index` expression at the two `DetectedInput` construction
sites of the HID axis loop (directinput.rs lines 587-600 and 659-672):
look the usage id up in the inverted map, falling back to its 1-based rank
among the sorted current axis keys, defaulting to 1. -/
def axisIndexFor (m : ℕ → Option ℕ) (curKeys : List ℕ) (axisId : ℕ) : ℕ :=
  match m axisId with
  | some i => i
  | none =>
    let sorted_axes := curKeys.insertionSort (· ≤ ·)
    match sorted_axes.findIdx? (· = axisId) with
    | some pos => pos + 1
    | none => 1

/-! ## Decoded report and the per-device drain of `InputDetector::poll` -/

/-- The parts of `HidFullReport` (hid_reader.rs lines 62-70) consumed by the
edge detector: per-usage raw axis values, per-usage logical ranges, and the
pressed-button list (in descriptor encounter order for `Variable` button
fields, report order for `Array` fields). -/
structure HidFullReport where
  axis_values : List (ℕ × ℕ)
  axis_ranges : List (ℕ × (ℤ × ℤ))
  pressed_buttons : List ℕ
deriving DecidableEq, Repr

/-- The newly-pressed filter of the button branch (directinput.rs lines
503-508): current pressed buttons not contained in the previous pressed
set, in current-report order. -/
def newlyPressed (prev cur : List ℕ) : List ℕ :=
  cur.filter fun btn => !(prev.contains btn)

/-- The button branch of the HID poll loop (directinput.rs lines 501-547):
with a previous pressed set available, emit one event for the first
newly-pressed button, if any. -/
def buttonEvents (inst : ℕ) (prev cur : List ℕ) : List PollEvent :=
  match newlyPressed prev cur with
  | [] => []
  | b :: _ => [.button inst b]

/-- The axis branch of the HID poll loop (directinput.rs lines 550-700):
for each current axis entry, read the previous value (default 0) and the
logical range (default (0, 65535)), and run the per-axis body. -/
def axisEvents (inst : ℕ) (m : ℕ → Option ℕ) (prev cur : HidFullReport) :
    List PollEvent :=
  cur.axis_values.flatMap fun p =>
    let axisId := p.1
    let curVal := p.2
    let prevVal := ((List.lookup axisId prev.axis_values).getD 0)
    let range := ((List.lookup axisId cur.axis_ranges).getD (0, 65535))
    processHidAxis inst (axisIndexFor m (cur.axis_values.map Prod.fst) axisId)
      axisId prevVal curVal range.1 range.2

/-- Events contributed by one decoded report inside the drain loop
(directinput.rs lines 493-700): buttons first, then axes, and nothing for a
device whose previous snapshot is absent (baseline establishment). -/
def processReport (inst : ℕ) (m : ℕ → Option ℕ)
    (prev : Option HidFullReport) (cur : HidFullReport) : List PollEvent :=
  match prev with
  | none => []
  | some p =>
    buttonEvents inst p.pressed_buttons cur.pressed_buttons
      ++ axisEvents inst m p cur

/-- The per-device drain loop of `InputDetector::poll` (directinput.rs lines
472-703) over the decode results of the reports read this poll (at most 10,
the cap being applied to the reads): a failed `parse_hid_full_report` is
discarded with `continue`, a decoded report is edge-detected against the
stored previous snapshot, which it then replaces. -/
def drainReports (inst : ℕ) (m : ℕ → Option ℕ) :
    Option HidFullReport → List (Except String HidFullReport) →
    List PollEvent × Option HidFullReport
  | prev, [] => ([], prev)
  | prev, .error _ :: rest => drainReports inst m prev rest
  | prev, .ok r :: rest =>
    let evs := processReport inst m prev r
    let (restEvs, finalPrev) := drainReports inst m (some r) rest
    (evs ++ restEvs, finalPrev)

/-! ## Effective bit depth (hid_reader.rs lines 240-252) -/

/-- Rust `u32::leading_zeros` modelled on naturals below `2 ^ 32` via the binary
length `Nat.size`. -/
def clz32 (n : ℕ) : ℕ := 32 - n.size

/-- The effective-bit-depth computation of `parse_hid_full_report`
(hid_reader.rs lines 240-252): `range = (logical_max - logical_min) as u32`
(a wrapping cast), then `32 - range.leading_zeros()` when `range > 0`, else
the declared field width. -/
def effectiveBits (logical_min logical_max : ℤ) (bits : ℕ) : ℕ :=
  let range : ℕ := ((logical_max - logical_min) % (2 ^ 32 : ℤ)).toNat
  if range > 0 then 32 - clz32 range else bits

/-- Modelled from the spec: the spec's stated formula
`ceil(log2(logical_max - logical_min))` for the effective bit depth, to be
compared with `effectiveBits`. -/
def specCeilLogTwo (range : ℕ) : ℕ := Nat.clog 2 range

/-! ## Per-axis check of `detect_axis_movement_for_device`
(directinput.rs lines 1073-1111) -/

/-- The per-axis body of `detect_axis_movement_for_device`: skip when the
logical range is not positive, require a relative change of at least 5% of
the range, then return the normalized value when its magnitude exceeds 0.15.
(The subsequent usage-id-to-index resolution is independent of this check.) -/
def axisMovementCheck (initialVal curVal : ℕ) (lo hi : ℤ) : Option ℚ :=
  let range : ℚ := ((hi - lo : ℤ) : ℚ)
  if range ≤ 0 then none
  else
    let change_abs : ℚ := |((curVal : ℤ) - (initialVal : ℤ) : ℤ)|
    let change_percent := change_abs / range
    if change_percent ≥ 5/100 then
      let normalized := normalizeAxis curVal lo hi
      if |normalized| > 15/100 then some normalized else none
    else none

/-! ## Device-name classification (directinput.rs lines 14-74) -/

/-- Substring containment on character lists: `hasSubAux pat s` is true when
`pat` occurs contiguously in `s`. -/
def prefixOfChars : List Char → List Char → Bool
  | [], _ => true
  | _ :: _, [] => false
  | a :: as, b :: bs => a == b && prefixOfChars as bs

def hasSubAux (pat : List Char) : List Char → Bool
  | [] => prefixOfChars pat []
  | b :: bs => prefixOfChars pat (b :: bs) || hasSubAux pat bs

/-- Rust `str::contains` with a literal pattern. -/
def strContains (s pat : String) : Bool := hasSubAux pat.toList s.toList

/-- ASCII lowercasing of one character (the fragment of Rust
`str::to_lowercase` exercised by ASCII device names and by every indicator
string). -/
def asciiLower (c : Char) : Char :=
  if 65 ≤ c.toNat ∧ c.toNat ≤ 90 then Char.ofNat (c.toNat + 32) else c

/-- Rust `name.to_lowercase()` on ASCII names. -/
def toLowerStr (s : String) : String := ⟨s.data.map asciiLower⟩

/-- The joystick/HOTAS indicator list of `is_gamepad` (directinput.rs lines
20-34), checked first. -/
def joystickIndicators : List String :=
  ["joystick", "hotas", "throttle", "gladiator", "warthog", "t16000",
   "vkb", "vkbsim", "virpil", "thrustmaster", "saitek", "x52", "x56"]

/-- The gamepad indicator list of `is_gamepad` (directinput.rs lines
46-57). -/
def gamepadIndicators : List String :=
  ["xbox", "playstation", "dualshock", "dualsense", "ps3", "ps4", "ps5",
   "controller for windows", "gamepad", "xinput"]

/-- The classifier `is_gamepad` (directinput.rs lines 14-74): lowercase the name, return
`false` on any joystick indicator, else `true` on any gamepad indicator,
else `false` (generic devices default to joystick). -/
def is_gamepad (name : String) : Bool :=
  let name_lower := toLowerStr name
  if joystickIndicators.any (fun ind => strContains name_lower ind) then
    false
  else if gamepadIndicators.any (fun ind => strContains name_lower ind) then
    true
  else
    false

/-! ## Helper lemmas -/

/-- Closed-form description of the event component of `xinputAxisStep`. -/
lemma xinputAxisStep_event (s : AxisState) (v : ℚ) :
    (xinputAxisStep s v).2 =
      if v > 1/2 ∧ |v - s.last_value| > 3/10 ∧
          s.last_triggered_direction ≠ some true then some true
      else if v < -(1/2) ∧ |v - s.last_value| > 3/10 ∧
          s.last_triggered_direction ≠ some false then some false
      else none := by
  obtain ⟨lv, dir⟩ := s
  by_cases hc : |v| < 3/10
  · have hnp : ¬ ((2:ℚ)⁻¹ < v) := by
      rcases abs_lt.mp hc with ⟨h1, h2⟩
      intro h
      linarith
    have hnn : ¬ (v < -(2:ℚ)⁻¹) := by
      rcases abs_lt.mp hc with ⟨h1, h2⟩
      intro h
      linarith
    simp [xinputAxisStep, hc, hnp, hnn]
  · by_cases hp : (2:ℚ)⁻¹ < v
    · have hnn : ¬ (v < -(2:ℚ)⁻¹) := by intro h; linarith
      by_cases hm : (3:ℚ)/10 < |v - lv|
      · by_cases hd : dir = some true
        · simp [xinputAxisStep, hc, hp, hnn, hm, hd]
        · simp [xinputAxisStep, hc, hp, hnn, hm, hd]
      · simp [xinputAxisStep, hc, hp, hnn, hm]
    · by_cases hn : v < -(2:ℚ)⁻¹
      · by_cases hm : (3:ℚ)/10 < |v - lv|
        · by_cases hd : dir = some false
          · simp [xinputAxisStep, hc, hp, hn, hm, hd]
          · simp [xinputAxisStep, hc, hp, hn, hm, hd]
        · simp [xinputAxisStep, hc, hp, hn, hm]
      · simp [xinputAxisStep, hc, hp, hn]

/-- A positive trigger: above the trigger threshold, sufficient movement,
direction not already positive. -/
lemma xinputAxisStep_trigger_pos (s : AxisState) (v : ℚ)
    (hp : (2:ℚ)⁻¹ < v) (hm : (3:ℚ)/10 < |v - s.last_value|)
    (hd : s.last_triggered_direction ≠ some true) :
    xinputAxisStep s v = (⟨v, some true⟩, some true) := by
  have hc : ¬ (|v| < 3/10) := by
    have h := le_abs_self v
    intro h2
    linarith
  simp [xinputAxisStep, hc, hp, hm, hd]

/-- A negative trigger: below the negative trigger threshold, sufficient
movement, direction not already negative. -/
lemma xinputAxisStep_trigger_neg (s : AxisState) (v : ℚ)
    (hn : v < -(2:ℚ)⁻¹) (hm : (3:ℚ)/10 < |v - s.last_value|)
    (hd : s.last_triggered_direction ≠ some false) :
    xinputAxisStep s v = (⟨v, some false⟩, some false) := by
  have hc : ¬ (|v| < 3/10) := by
    have h := neg_abs_le v
    intro h2
    linarith
  have hnp : ¬ ((2:ℚ)⁻¹ < v) := by intro h; linarith
  simp [xinputAxisStep, hc, hn, hm, hd, hnp]

/-- A state already triggered positively is frozen by any sample that
neither re-centers nor crosses the negative trigger threshold. -/
lemma xinputAxisStep_frozen (s : AxisState) (v : ℚ)
    (hd : s.last_triggered_direction = some true)
    (hc : ¬ (|v| < 3/10)) (hn : ¬ (v < -(2:ℚ)⁻¹)) :
    xinputAxisStep s v = (s, none) := by
  simp [xinputAxisStep, hc, hd, hn]

/-- Looking a usage id up in the inverted numbering of a duplicate-free
usage list finds its position-based index. -/
lemma lookup_diToHidAux (l : List ℕ) :
    ∀ (n k uid : ℕ), l.Nodup → l[k]? = some uid →
      List.lookup uid ((diToHidAux n l).map Prod.swap) = some (n + k) := by
  induction l with
  | nil =>
    intro n k uid _ h
    simp at h
  | cons a rest ih =>
    intro n k uid hnd h
    cases k with
    | zero =>
      have ha : a = uid := by simpa using h
      subst ha
      simp [diToHidAux, List.lookup]
    | succ k =>
      have h' : rest[k]? = some uid := by simpa using h
      have hmem : uid ∈ rest := List.getElem?_mem h'
      have hne : (uid == a) = false := by
        rw [beq_eq_false_iff_ne]
        intro hco
        exact (List.nodup_cons.mp hnd).1 (hco ▸ hmem)
      rw [show ((diToHidAux n (a :: rest)).map Prod.swap) =
        (a, n) :: ((diToHidAux (n + 1) rest).map Prod.swap) from rfl]
      rw [List.lookup, hne]
      rw [show n + (k + 1) = (n + 1) + k by omega]
      exact ih (n + 1) k uid (List.nodup_cons.mp hnd).2 h'

/-- Events of the per-axis body are never button events. -/
lemma processHidAxis_countP (inst idx axisId prevVal curVal : ℕ)
    (lo hi : ℤ) :
    (processHidAxis inst idx axisId prevVal curVal lo hi).countP
      PollEvent.isButton = 0 := by
  simp only [processHidAxis]
  split_ifs with h1 h2 h3
  · rfl
  · cases hh : hatDirection curVal
    · rfl
    · rfl
  · rfl
  · rfl

/-- Events of the axis branch of one report are never button events. -/
lemma axisEvents_countP (inst : ℕ) (m : ℕ → Option ℕ)
    (p cur : HidFullReport) :
    (axisEvents inst m p cur).countP PollEvent.isButton = 0 := by
  rw [List.countP_eq_zero]
  intro e he
  unfold axisEvents at he
  rw [List.mem_flatMap] at he
  obtain ⟨x, -, he⟩ := he
  have h0 := (List.countP_eq_zero.mp
    (processHidAxis_countP inst
      (axisIndexFor m (List.map Prod.fst cur.axis_values) x.1) x.1
      ((List.lookup x.1 p.axis_values).getD 0) x.2
      ((List.lookup x.1 cur.axis_ranges).getD (0, 65535)).1
      ((List.lookup x.1 cur.axis_ranges).getD (0, 65535)).2)) e
  exact h0 he

/-- The button branch emits at most one event. -/
lemma buttonEvents_length (inst : ℕ) (prev cur : List ℕ) :
    (buttonEvents inst prev cur).length ≤ 1 := by
  unfold buttonEvents
  cases h : newlyPressed prev cur <;> simp

/-- One decoded report contributes at most one button event. -/
lemma processReport_countP (inst : ℕ) (m : ℕ → Option ℕ)
    (prev : Option HidFullReport) (cur : HidFullReport) :
    (processReport inst m prev cur).countP PollEvent.isButton ≤ 1 := by
  cases prev with
  | none => simp [processReport]
  | some p =>
    simp only [processReport]
    rw [List.countP_append]
    have h1 := le_trans
      (List.countP_le_length (p := PollEvent.isButton))
      (buttonEvents_length inst p.pressed_buttons cur.pressed_buttons)
    have h2 := axisEvents_countP inst m p cur
    omega

/-- Unfolding equation for the drain loop on a decoded report. -/
lemma drainReports_ok (inst : ℕ) (m : ℕ → Option ℕ)
    (prev : Option HidFullReport) (r : HidFullReport)
    (rest : List (Except String HidFullReport)) :
    drainReports inst m prev (.ok r :: rest) =
      (processReport inst m prev r ++ (drainReports inst m (some r) rest).1,
       (drainReports inst m (some r) rest).2) := by
  simp [drainReports]

/-- The drain loop emits at most one button event per drained report. -/
lemma drainReports_countP (inst : ℕ) (m : ℕ → Option ℕ) :
    ∀ (reps : List (Except String HidFullReport))
      (prev : Option HidFullReport),
      ((drainReports inst m prev reps).1.countP PollEvent.isButton) ≤
        reps.length := by
  intro reps
  induction reps with
  | nil =>
    intro prev
    simp [drainReports]
  | cons r rest ih =>
    intro prev
    cases r with
    | error e =>
      have heq : drainReports inst m prev (Except.error e :: rest) =
          drainReports inst m prev rest := rfl
      rw [heq]
      exact le_trans (ih prev) (by simp)
    | ok r' =>
      rw [drainReports_ok]
      simp only [List.countP_append, List.length_cons]
      have hone := processReport_countP inst m prev r'
      have hrest := ih (some r')
      omega

/-- The binary length `Nat.size` pinned by a power-of-two sandwich. -/
lemma size_eq_succ (n k : ℕ) (h1 : 2 ^ k ≤ n) (h2 : n < 2 ^ (k + 1)) :
    Nat.size n = k + 1 :=
  le_antisymm (Nat.size_le.mpr h2) (Nat.lt_size.mpr h1)

/-- For a positive range below `2^32`, the wrapped cast is the identity and
the code computes the binary length of the range. -/
lemma effectiveBits_eq_size (lo hi : ℤ) (bits : ℕ) (h1 : 0 < hi - lo)
    (h2 : hi - lo < 2 ^ 32) :
    effectiveBits lo hi bits = Nat.size (hi - lo).toNat := by
  unfold effectiveBits
  rw [Int.emod_eq_of_lt (le_of_lt h1) h2]
  have hpos : 0 < (hi - lo).toNat := by omega
  rw [if_pos hpos]
  unfold clz32
  have h2n : (hi - lo).toNat < 2 ^ 32 := by
    have hpow : (2 : ℤ) ^ 32 = 4294967296 := by norm_num
    have hpow2 : (2 : ℕ) ^ 32 = 4294967296 := by norm_num
    omega
  have hsize : Nat.size (hi - lo).toNat ≤ 32 := Nat.size_le.mpr h2n
  omega

/-- Off exact powers of two, the binary length coincides with the ceiling
logarithm. -/
lemma clog_eq_size_of_not_pow (r : ℕ) (hr : 0 < r)
    (hnp : ∀ j, r ≠ 2 ^ j) : Nat.clog 2 r = Nat.size r := by
  have h1 : 2 ^ Nat.log 2 r ≤ r := Nat.pow_log_le_self 2 (by omega)
  have h2 : r < 2 ^ (Nat.log 2 r + 1) :=
    Nat.lt_pow_succ_log_self (by norm_num) r
  have h1' : 2 ^ Nat.log 2 r < r :=
    lt_of_le_of_ne h1 (fun h => hnp (Nat.log 2 r) h.symm)
  have hs : Nat.size r = Nat.log 2 r + 1 := size_eq_succ r (Nat.log 2 r) h1 h2
  have hle : Nat.clog 2 r ≤ Nat.log 2 r + 1 :=
    (Nat.le_pow_iff_clog_le (by norm_num)).mp (le_of_lt h2)
  have hgt : ¬ (Nat.clog 2 r ≤ Nat.log 2 r) := by
    intro hcon
    have := (Nat.le_pow_iff_clog_le (by norm_num)).mpr hcon
    omega
  omega

/-! ## Theorems -/

/-- C1 counterexample: a HID axis (usage id 48, range [0, 65535]) moving
from raw 32768 to raw 40000 emits a positive axis event although its
normalized value 2893/13107 ≈ 0.22 does not exceed the trigger threshold
0.5 and the normalized movement delta ≈ 0.22 does not exceed the movement
floor 0.3 — the claimed iff fails on HID axes. -/
theorem c1_hid_axis_counterexample :
    processHidAxis 1 1 48 32768 40000 0 65535 =
      [PollEvent.axis 1 1 true (2893/13107)] ∧
    ¬ ((2893/13107 : ℚ) > 1/2) ∧
    ¬ (|(2893/13107 : ℚ) - 1/65535| > 3/10) := by
  refine ⟨?_, by norm_num, ?_⟩
  · have hn : normalizeAxis 40000 0 65535 = 2893/13107 := by
      unfold normalizeAxis
      norm_num
    simp only [processHidAxis]
    rw [if_neg (by decide), if_pos (by decide), if_neg (by decide), hn]
    norm_num
  · rw [show (2893/13107 - 1/65535 : ℚ) = 14464/65535 by norm_num,
      abs_of_nonneg (by norm_num : (0:ℚ) ≤ 14464/65535)]
    norm_num

/-- C1 amended: the claimed trigger rule (positive iff normalized > 0.5,
movement delta > 0.3, last-triggered direction not already that sign) holds
exactly for the XInput axes of `InputDetector::poll`; HID axes instead emit
exactly one event whenever the logical range is positive and the absolute
raw change is at least 50, with direction the sign test normalized > 0, with
no thresholds and no per-axis direction state. -/
theorem c1_axis_trigger_rule_amended :
    (∀ (s : AxisState) (v : ℚ),
      ((xinputAxisStep s v).2 = some true ↔
        v > 1/2 ∧ |v - s.last_value| > 3/10 ∧
        s.last_triggered_direction ≠ some true) ∧
      ((xinputAxisStep s v).2 = some false ↔
        v < -(1/2) ∧ |v - s.last_value| > 3/10 ∧
        s.last_triggered_direction ≠ some false)) ∧
    (∀ (inst idx axisId prevVal curVal : ℕ) (lo hi : ℤ), axisId ≠ 57 →
      (processHidAxis inst idx axisId prevVal curVal lo hi =
        [PollEvent.axis inst idx (decide (normalizeAxis curVal lo hi > 0))
          (normalizeAxis curVal lo hi)] ↔
        0 < hi - lo ∧ (50:ℤ) ≤ |(curVal : ℤ) - (prevVal : ℤ)|)) := by
  constructor
  · intro s v
    rw [xinputAxisStep_event s v]
    constructor
    · constructor
      · intro h
        split_ifs at h with h1 h2
        · exact h1
        all_goals simp_all
      · intro h
        rw [if_pos h]
    · constructor
      · intro h
        split_ifs at h with h1 h2
        all_goals try exact h2
        all_goals simp_all
      · intro h
        have h1 : ¬ (v > 1/2 ∧ |v - s.last_value| > 3/10 ∧
            s.last_triggered_direction ≠ some true) := by
          rintro ⟨hp, -, -⟩
          rcases h with ⟨hn, -, -⟩
          linarith
        rw [if_neg h1, if_pos h]
  · intro inst idx axisId prevVal curVal lo hi hne
    by_cases h1 : hi - lo ≤ 0
    · simp only [processHidAxis]
      rw [if_pos h1]
      constructor
      · intro h
        exact absurd h (by simp)
      · rintro ⟨h2, -⟩
        omega
    · by_cases h2 : (50:ℤ) ≤ |(curVal : ℤ) - (prevVal : ℤ)|
      · simp only [processHidAxis]
        rw [if_neg h1, if_pos h2, if_neg hne]
        simp only [true_iff, iff_true]
        exact ⟨by omega, h2⟩
      · simp only [processHidAxis]
        rw [if_neg h1, if_neg h2]
        constructor
        · intro h
          exact absurd h (by simp)
        · rintro ⟨-, h⟩
          exact absurd h h2

/-- C1 witness: at the counterexample's input the HID characterization
applies with both side conditions discharged. -/
theorem c1_axis_trigger_rule_witness :
    processHidAxis 1 1 48 32768 40000 0 65535 =
      [PollEvent.axis 1 1 (decide (normalizeAxis 40000 0 65535 > 0))
        (normalizeAxis 40000 0 65535)] :=
  (c1_axis_trigger_rule_amended.2 1 1 48 32768 40000 0 65535
    (by decide)).mpr (by decide)

/-- C3 counterexample: from a fresh state, the sample sequence
[0.6, −0.6] crosses +0.5 then −0.5 with no sample inside the centered
dead-zone, yet the detector fires the positive event AND the
opposite-direction (negative) event. -/
theorem c3_opposite_direction_counterexample :
    (xinputRun ⟨0, none⟩ [3/5, -(3/5)]).1 = [true, false] ∧
    (∀ v ∈ [(3/5 : ℚ), -(3/5)], ¬ (|v| < 3/10)) := by
  constructor
  · have h1 : xinputAxisStep ⟨0, none⟩ (3/5) = (⟨3/5, some true⟩, some true) :=
      xinputAxisStep_trigger_pos ⟨0, none⟩ (3/5) (by norm_num)
        (by
          rw [show (3:ℚ)/5 - (⟨0, none⟩ : AxisState).last_value = 3/5 by norm_num,
            abs_of_nonneg (by norm_num : (0:ℚ) ≤ 3/5)]
          norm_num)
        (by simp)
    have h2 : xinputAxisStep ⟨3/5, some true⟩ (-(3/5)) =
        (⟨-(3/5), some false⟩, some false) :=
      xinputAxisStep_trigger_neg ⟨3/5, some true⟩ (-(3/5)) (by norm_num)
        (by
          rw [show (-(3/5 : ℚ) - (⟨3/5, some true⟩ : AxisState).last_value) =
              -(6/5) by norm_num,
            abs_neg, abs_of_nonneg (by norm_num : (0:ℚ) ≤ 6/5)]
          norm_num)
        (by simp)
    simp [xinputRun, h1, h2]
  · intro v hv
    rcases List.mem_cons.mp hv with rfl | hv2
    · rw [abs_of_nonneg (by norm_num : (0:ℚ) ≤ 3/5)]
      norm_num
    · rcases List.mem_singleton.mp hv2 with rfl
      rw [abs_neg, abs_of_nonneg (by norm_num : (0:ℚ) ≤ 3/5)]
      norm_num

/-- C3 amended: the hysteresis only suppresses same-direction re-triggering:
after a positive trigger, no event at all fires for as long as the samples
neither re-enter the dead-zone (|v| < 0.3) nor cross the negative trigger
threshold (v < −0.5); an opposite-direction crossing, however, does fire
without re-centering (see the counterexample). -/
theorem c3_hysteresis_amended :
    ∀ (vs : List ℚ) (s : AxisState),
      s.last_triggered_direction = some true →
      (∀ v ∈ vs, ¬ (|v| < 3/10) ∧ ¬ (v < -(2:ℚ)⁻¹)) →
      (xinputRun s vs).1 = [] := by
  intro vs
  induction vs with
  | nil => intro s _ _; rfl
  | cons v rest ih =>
    intro s hd hall
    have hv := hall v (List.mem_cons_self v rest)
    have hstep : xinputAxisStep s v = (s, none) :=
      xinputAxisStep_frozen s v hd hv.1 hv.2
    have hrest : (xinputRun s rest).1 = [] :=
      ih s hd (fun u hu => hall u (List.mem_cons_of_mem v hu))
    simp [xinputRun, hstep, hrest]

/-- C3 witness: a triggered-positive state sees a sample at 0.4 (outside
the dead-zone, above −0.5) and fires nothing. -/
theorem c3_hysteresis_amended_witness :
    (xinputRun ⟨3/5, some true⟩ [2/5]).1 = [] :=
  c3_hysteresis_amended [2/5] ⟨3/5, some true⟩ rfl (by
    intro v hv
    rcases List.mem_singleton.mp hv with rfl
    constructor
    · rw [abs_of_nonneg (by norm_num : (0:ℚ) ≤ 2/5)]
      norm_num
    · norm_num)

/-- C6: the hat-switch table maps raw 0 and 1 to up, 2 and 3 to right, 4
and 5 to down, 6 and 7 to left, and 8 and 15 to no event; every hat event
of the per-axis body (usage id 0x39 = 57) is produced through this table,
subject to the range and raw-change gates of the surrounding loop. -/
theorem c6_hat_table :
    hatDirection 0 = some HatDir.up ∧ hatDirection 1 = some HatDir.up ∧
    hatDirection 2 = some HatDir.right ∧ hatDirection 3 = some HatDir.right ∧
    hatDirection 4 = some HatDir.down ∧ hatDirection 5 = some HatDir.down ∧
    hatDirection 6 = some HatDir.left ∧ hatDirection 7 = some HatDir.left ∧
    hatDirection 8 = none ∧ hatDirection 15 = none ∧
    (∀ (inst idx prevVal curVal : ℕ) (lo hi : ℤ),
      processHidAxis inst idx 57 prevVal curVal lo hi =
        if 0 < hi - lo ∧ (50:ℤ) ≤ |(curVal : ℤ) - (prevVal : ℤ)| then
          (match hatDirection curVal with
           | some d => [PollEvent.hat inst d (normalizeAxis curVal lo hi)]
           | none => [])
        else []) := by
  refine ⟨rfl, rfl, rfl, rfl, rfl, rfl, rfl, rfl, rfl, rfl, ?_⟩
  intro inst idx prevVal curVal lo hi
  by_cases h1 : hi - lo ≤ 0
  · simp only [processHidAxis]
    rw [if_pos h1, if_neg]
    rintro ⟨h2, -⟩
    omega
  · by_cases h2 : (50:ℤ) ≤ |(curVal : ℤ) - (prevVal : ℤ)|
    · simp only [processHidAxis]
      rw [if_neg h1, if_pos h2]
      simp only [if_true]
      rw [if_pos (⟨by omega, h2⟩ :
        0 < hi - lo ∧ (50:ℤ) ≤ |(curVal : ℤ) - (prevVal : ℤ)|)]
    · simp only [processHidAxis]
      rw [if_neg h1, if_neg h2, if_neg]
      rintro ⟨-, h3⟩
      exact absurd h3 h2

/-- C5: the first snapshot decoded for a freshly opened device establishes a
baseline only: the report contributes no button or axis event (whatever
buttons or axis deflections it carries), and the drain continues with it
stored as the previous snapshot. -/
theorem c5_first_snapshot_baseline :
    ∀ (inst : ℕ) (m : ℕ → Option ℕ) (r : HidFullReport)
      (rest : List (Except String HidFullReport)),
      processReport inst m none r = [] ∧
      drainReports inst m none (.ok r :: rest) =
        drainReports inst m (some r) rest := by
  intro inst m r rest
  refine ⟨rfl, ?_⟩
  simp [drainReports, processReport]

/-- C8: a report whose decode fails is discarded: the drain loop continues
with the remaining reports and the stored previous snapshot (hence all
edge-detection state) is exactly what it would have been without the bad
report. -/
theorem c8_bad_report_discarded :
    ∀ (inst : ℕ) (m : ℕ → Option ℕ) (prev : Option HidFullReport)
      (e : String) (rest : List (Except String HidFullReport)),
      drainReports inst m prev (.error e :: rest) =
        drainReports inst m prev rest := by
  intro inst m prev e rest
  rfl

/-- C9: any device name whose lowercasing contains a joystick indicator is
classified as a joystick (`is_gamepad` returns `false`), regardless of
whether a gamepad indicator also occurs: the joystick list is checked
first. -/
theorem c9_joystick_indicators_first :
    ∀ name : String,
      (∃ ind ∈ joystickIndicators, strContains (toLowerStr name) ind = true) →
      is_gamepad name = false := by
  intro name h
  have hany : joystickIndicators.any
      (fun ind => strContains (toLowerStr name) ind) = true := by
    rcases h with ⟨ind, h1, h2⟩
    exact List.any_eq_true.mpr ⟨ind, h1, h2⟩
  simp [is_gamepad, hany]

/-- C9 witness: "Saitek X52 Pro Gamepad" contains both the joystick
indicator "x52" and the gamepad indicator "gamepad", and is classified as a
joystick. -/
theorem c9_joystick_indicators_first_witness :
    strContains (toLowerStr "Saitek X52 Pro Gamepad") "gamepad" = true ∧
    is_gamepad "Saitek X52 Pro Gamepad" = false :=
  ⟨by decide,
   c9_joystick_indicators_first "Saitek X52 Pro Gamepad"
     ⟨"x52", by decide, by decide⟩⟩

/-- C10: an axis whose logical range is not positive is skipped before any
normalization, both in the poll loop and in
`detect_axis_movement_for_device`: no event and no movement result is
produced for it. -/
theorem c10_nonpositive_range_skipped :
    ∀ (inst idx axisId prevVal curVal : ℕ) (lo hi : ℤ),
      hi - lo ≤ 0 →
      processHidAxis inst idx axisId prevVal curVal lo hi = [] ∧
      axisMovementCheck prevVal curVal lo hi = none := by
  intro inst idx axisId prevVal curVal lo hi h
  constructor
  · simp [processHidAxis, h]
  · have hq : ((hi - lo : ℤ) : ℚ) ≤ 0 := by exact_mod_cast h
    simp only [axisMovementCheck, hq, if_pos]

/-- C10 witness: a degenerate logical range [5, 5] produces nothing. -/
theorem c10_nonpositive_range_skipped_witness :
    processHidAxis 1 1 48 0 200 5 5 = [] ∧
    axisMovementCheck 0 200 5 5 = none :=
  c10_nonpositive_range_skipped 1 1 48 0 200 5 5 (by decide)

/-- C2: when the axis usage ids of a descriptor are pairwise distinct, the
axis field found at 0-based encounter position k across all input reports
(buttons and padding skipped) is numbered k+1 by the DirectInput mapping,
the poll loop's axis-index computation resolves its usage id to k+1, and
the emitted identifier string carries exactly that number. -/
theorem c2_axis_index_encounter_order :
    ∀ (reports : List (List HidField)) (k uid : ℕ),
      (axisUsageIds reports).Nodup →
      (axisUsageIds reports)[k]? = some uid →
      (∀ curKeys, axisIndexFor (hidToAxis reports) curKeys uid = k + 1) ∧
      (∀ (inst : ℕ) (pos : Bool) (n : ℚ),
        (PollEvent.axis inst (k + 1) pos n).inputString =
          "js" ++ toString inst ++ "_axis" ++ toString (k + 1) ++ "_" ++
            (if pos then "positive" else "negative")) := by
  intro reports k uid hnd hk
  have hlook : hidToAxis reports uid = some (1 + k) :=
    lookup_diToHidAux (axisUsageIds reports) 1 k uid hnd hk
  constructor
  · intro curKeys
    unfold axisIndexFor
    rw [hlook]
    show 1 + k = k + 1
    omega
  · intro inst pos n
    rfl

/-- C2 witness: a two-report descriptor with axis usages X (48) and Y (49),
a button field and an array field interleaved; usage 49 is the second axis
field encountered and is numbered 2. -/
theorem c2_axis_index_encounter_order_witness :
    axisIndexFor
      (hidToAxis [[HidField.Variable 1 48 0 255 8, HidField.Variable 9 1 0 1 1,
        HidField.Array 8], [HidField.Variable 1 49 0 255 8]])
      [48, 49] 49 = 2 :=
  (c2_axis_index_encounter_order
    [[HidField.Variable 1 48 0 255 8, HidField.Variable 9 1 0 1 1,
      HidField.Array 8], [HidField.Variable 1 49 0 255 8]]
    1 49 (by decide) (by decide)).1 [48, 49]

/-- C4 counterexample: one poll draining two decoded reports, each adding a
newly pressed button, emits two button events for the device — "at most one
button event per device per poll" fails (it holds per report, and up to 10
reports are drained per poll). -/
theorem c4_per_poll_counterexample :
    ¬ (((drainReports 1 (fun _ => none)
        (some ⟨[], [], []⟩)
        [.ok ⟨[], [], [3]⟩, .ok ⟨[], [], [3, 7]⟩]).1.countP
          PollEvent.isButton) ≤ 1) := by
  decide

/-- C4 amended: button events are emitted only for buttons entering the
pressed set (a release emits nothing); at most one button event per decoded
report, hence at most one per drained report within a poll (so a poll
draining several queued reports can emit several); the reported button is
the first newly-pressed one in the snapshot's order, which is the
lowest-numbered one whenever that order is ascending (as produced by
Variable button fields); {3} to {3,7} yields exactly one event, for 7, and
{3,7} to {3} yields zero events. -/
theorem c4_button_edge_amended :
    ∀ (inst : ℕ) (prev cur : List ℕ),
      (buttonEvents inst prev cur).length ≤ 1 ∧
      (∀ e ∈ buttonEvents inst prev cur,
        ∃ b, e = PollEvent.button inst b ∧ b ∈ cur ∧ b ∉ prev) ∧
      (List.Sorted (· ≤ ·) cur →
        ∀ b c, PollEvent.button inst b ∈ buttonEvents inst prev cur →
          c ∈ cur → c ∉ prev → b ≤ c) ∧
      buttonEvents inst [3] [3, 7] = [PollEvent.button inst 7] ∧
      buttonEvents inst [3, 7] [3] = [] ∧
      (∀ (m : ℕ → Option ℕ) (prevRep : Option HidFullReport)
        (reps : List (Except String HidFullReport)),
        ((drainReports inst m prevRep reps).1.countP PollEvent.isButton) ≤
          reps.length) := by
  intro inst prev cur
  refine ⟨buttonEvents_length inst prev cur, ?_, ?_, rfl, rfl,
    fun m prevRep reps => drainReports_countP inst m reps prevRep⟩
  · intro e he
    unfold buttonEvents at he
    cases h : newlyPressed prev cur with
    | nil =>
      rw [h] at he
      simp at he
    | cons b t =>
      rw [h] at he
      have he2 : e = PollEvent.button inst b := by simpa using he
      subst he2
      refine ⟨b, rfl, ?_⟩
      have hb : b ∈ newlyPressed prev cur := h ▸ List.mem_cons_self b t
      unfold newlyPressed at hb
      rw [List.mem_filter] at hb
      refine ⟨hb.1, ?_⟩
      have hb2 := hb.2
      simp only [Bool.not_eq_true'] at hb2
      intro hmem
      have hb3 : List.elem b prev = false := hb2
      rw [List.elem_eq_mem] at hb3
      simp [hmem] at hb3
  · intro hsorted b c hbe hc hcp
    unfold buttonEvents at hbe
    cases h : newlyPressed prev cur with
    | nil =>
      rw [h] at hbe
      simp at hbe
    | cons b0 t =>
      rw [h] at hbe
      have hb : b = b0 := by simpa using hbe
      subst hb
      have hcn : c ∈ newlyPressed prev cur := by
        unfold newlyPressed
        rw [List.mem_filter]
        refine ⟨hc, ?_⟩
        simp only [Bool.not_eq_true']
        show List.elem c prev = false
        rw [List.elem_eq_mem]
        simp [hcp]
      rw [h] at hcn
      have hs : List.Sorted (· ≤ ·) (newlyPressed prev cur) :=
        List.Pairwise.sublist (List.filter_sublist cur) hsorted
      rw [h] at hs
      rcases List.mem_cons.mp hcn with rfl | hct
      · exact le_refl _
      · exact (List.pairwise_cons.mp hs).1 c hct

/-- C4 witness: for the sorted snapshot {3,7} succeeding {3}, the emitted
button 7 is minimal among newly-pressed buttons. -/
theorem c4_button_edge_amended_witness :
    PollEvent.button 1 7 ∈ buttonEvents 1 [3] [3, 7] ∧ (7 : ℕ) ≤ 7 :=
  ⟨by decide,
   (c4_button_edge_amended 1 [3] [3, 7]).2.2.1 (by decide) 7 7 (by decide)
     (by decide) (by decide)⟩

/-- C7 counterexample: for the logical range [0, 1024] the code infers bit
depth 11 (the binary length of 1024), while the spec's formula
ceil(log2(1024)) gives 10 — the claimed equality fails at exact powers of
two. -/
theorem c7_power_of_two_counterexample :
    effectiveBits 0 1024 16 = 11 ∧ specCeilLogTwo 1024 = 10 ∧
    (11 : ℕ) ≠ 10 := by
  refine ⟨?_, ?_, by decide⟩
  · rw [effectiveBits_eq_size 0 1024 16 (by norm_num) (by norm_num),
      show ((1024 : ℤ) - 0).toNat = 1024 by decide]
    exact size_eq_succ 1024 10 (by norm_num) (by norm_num)
  · unfold specCeilLogTwo
    rw [show (1024 : ℕ) = 2 ^ 10 by norm_num]
    exact Nat.clog_pow 2 10 (by norm_num)

/-- C7 amended: for a positive logical range below 2^32 the inferred
effective bit depth is the binary length floor(log2(range)) + 1 of
range = logical_max - logical_min; this agrees with the spec's
ceil(log2(range)) whenever range is not an exact power of two — in
particular [0, 1023] infers 10 and [0, 65535] infers 16. -/
theorem c7_effective_bits_amended :
    effectiveBits 0 1023 10 = 10 ∧ effectiveBits 0 65535 16 = 16 ∧
    (∀ (lo hi : ℤ) (bits : ℕ), 0 < hi - lo → hi - lo < 2 ^ 32 →
      effectiveBits lo hi bits = Nat.size (hi - lo).toNat ∧
      ((∀ j, (hi - lo).toNat ≠ 2 ^ j) →
        effectiveBits lo hi bits = specCeilLogTwo (hi - lo).toNat)) := by
  refine ⟨?_, ?_, ?_⟩
  · rw [effectiveBits_eq_size 0 1023 10 (by norm_num) (by norm_num),
      show ((1023 : ℤ) - 0).toNat = 1023 by decide]
    exact size_eq_succ 1023 9 (by norm_num) (by norm_num)
  · rw [effectiveBits_eq_size 0 65535 16 (by norm_num) (by norm_num),
      show ((65535 : ℤ) - 0).toNat = 65535 by decide]
    exact size_eq_succ 65535 15 (by norm_num) (by norm_num)
  · intro lo hi bits hp hlt
    have hs := effectiveBits_eq_size lo hi bits hp hlt
    refine ⟨hs, fun hnp => ?_⟩
    rw [hs]
    unfold specCeilLogTwo
    have hr : 0 < (hi - lo).toNat := by omega
    rw [clog_eq_size_of_not_pow (hi - lo).toNat hr hnp]

/-- C7 witness: the general statement applied to the range [0, 1023]. -/
theorem c7_effective_bits_amended_witness :
    effectiveBits 0 1023 10 = Nat.size ((1023 : ℤ) - 0).toNat :=
  (c7_effective_bits_amended.2.2 0 1023 10 (by decide) (by decide)).1

end SCBind
